import Mathlib

/-!
Verification of the fuzzy personality classifier (src/main.py) against its
natural-language specification.  The fuzzy inference engine itself lives in
the external scikit-fuzzy library, so the engine operations (membership
evaluators, rule evaluation, implication/aggregation, centroid
defuzzification) are modelled from the spec; the rule bases, breakpoints,
input bindings and interpretation functions are translated from src/main.py.
All arithmetic is over ℚ (the program works at breakpoints and grid points
where float arithmetic is exact).
-/

namespace Fuzylogic

/-- Modelled from the spec: triangle membership evaluator (the `fuzz.trimf`
shapes used by src/main.py; the evaluator itself is missing from src).
Piecewise linear: 0 below `a`, rising linearly `a→b`, exactly 1 at `b`,
falling linearly to 0 by `c`, 0 beyond. -/
def trimf (a b c x : ℚ) : ℚ :=
  if a < x ∧ x < b then (x - a) / (b - a)
  else if x = b then 1
  else if b < x ∧ x < c then (c - x) / (c - b)
  else 0

/-- Modelled from the spec: trapezoid membership evaluator (the `fuzz.trapmf`
shapes used by src/main.py; the evaluator itself is missing from src).
Piecewise linear: 0 below `a`, rising linearly `a→b`, 1 between `b` and `c`,
falling linearly to 0 by `d`, 0 beyond. -/
def trapmf (a b c d x : ℚ) : ℚ :=
  if a < x ∧ x < b then (x - a) / (b - a)
  else if b ≤ x ∧ x ≤ c then 1
  else if c < x ∧ x < d then (d - x) / (d - c)
  else 0

/-- Antecedent term `low` = trapmf [0, 0, 3, 5] (src/main.py line 37). -/
def lowMF (x : ℚ) : ℚ := trapmf 0 0 3 5 x

/-- Antecedent term `med` = trimf [4, 5.5, 7] (src/main.py line 38). -/
def medMF (x : ℚ) : ℚ := trimf 4 (11 / 2) 7 x

/-- Antecedent term `high` = trapmf [6, 8, 10, 10] (src/main.py line 39). -/
def highMF (x : ℚ) : ℚ := trapmf 6 8 10 10 x

/-- Express term `reserved` = trapmf [0, 0, 3, 5] (src/main.py line 45). -/
def reservedMF (x : ℚ) : ℚ := trapmf 0 0 3 5 x

/-- Express term `balanced` = trimf [4, 5.5, 7] (src/main.py line 46). -/
def balancedMF (x : ℚ) : ℚ := trimf 4 (11 / 2) 7 x

/-- Express term `expressive` = trapmf [6, 8, 10, 10] (src/main.py line 47). -/
def expressiveMF (x : ℚ) : ℚ := trapmf 6 8 10 10 x

/-- Orientation output term `introvert` = trimf [0, 0, 50] (src/main.py line 50). -/
def introvertMF (x : ℚ) : ℚ := trimf 0 0 50 x

/-- Orientation output term `ambivert` = trimf [30, 50, 70] (src/main.py line 51). -/
def ambivertMF (x : ℚ) : ℚ := trimf 30 50 70 x

/-- Orientation output term `extrovert` = trimf [60, 100, 100] (src/main.py line 52). -/
def extrovertMF (x : ℚ) : ℚ := trimf 60 100 100 x

/-- Stability output term `low` = trimf [0, 0, 50] (src/main.py line 55). -/
def stabLowMF (x : ℚ) : ℚ := trimf 0 0 50 x

/-- Stability output term `balanced` = trimf [30, 50, 70] (src/main.py line 56). -/
def stabBalancedMF (x : ℚ) : ℚ := trimf 30 50 70 x

/-- Stability output term `high` = trimf [60, 100, 100] (src/main.py line 57). -/
def stabHighMF (x : ℚ) : ℚ := trimf 60 100 100 x

/-- Output universe U100 = np.arange(0, 100.5, 0.5): 201 samples 0, 0.5, …, 100
(src/main.py line 18). -/
def U100 : List ℚ := (List.range 201).map (fun i => (i : ℚ) / 2)

/-- The nine crisp input ratings bound by src/main.py lines 127-137. -/
structure Inputs where
  social : ℚ
  talk : ℚ
  confidence : ℚ
  energy : ℚ
  alone : ℚ
  initiate : ℚ
  group : ℚ
  public_speak : ℚ
  express : ℚ

/-- Error surfaced by defuzzification when no rule fired (spec section 7). -/
inductive FuzzyError where
  | noActiveRule
deriving DecidableEq

instance {ε α : Type} [DecidableEq ε] [DecidableEq α] : DecidableEq (Except ε α) := fun a b =>
  match a, b with
  | Except.ok x, Except.ok y =>
      if h : x = y then isTrue (by rw [h]) else isFalse (by simp [h])
  | Except.error x, Except.error y =>
      if h : x = y then isTrue (by rw [h]) else isFalse (by simp [h])
  | Except.ok _, Except.error _ => isFalse (by simp)
  | Except.error _, Except.ok _ => isFalse (by simp)

/-- Modelled from the spec: a rule is its firing strength (AND = min, OR = max
over term degrees, spec 4.3) together with its target consequent-term curve;
implication clips (min) the curve by the strength (spec 4.4). -/
def clip (w : ℚ) (mf : ℚ → ℚ) (x : ℚ) : ℚ := min w (mf x)

/-- Modelled from the spec: aggregation takes the pointwise maximum of all
clipped consequent curves (spec 4.4), starting from the all-zero curve. -/
def aggregate (rules : List (ℚ × (ℚ → ℚ))) (x : ℚ) : ℚ :=
  (rules.map (fun r => clip r.1 r.2 x)).foldr max 0

/-- Modelled from the spec: one pass over the sampled curve accumulating
the numerator Σ xᵢ·μᵢ and denominator Σ μᵢ of the centroid (spec 4.5). -/
def centroidAccum (curve : List (ℚ × ℚ)) : ℚ × ℚ :=
  curve.foldr (fun p acc => (p.1 * p.2 + acc.1, p.2 + acc.2)) (0, 0)

/-- Modelled from the spec: centroid defuzzification Σ(xᵢ·μᵢ)/Σ(μᵢ), surfacing
`noActiveRule` when Σμᵢ = 0 instead of dividing by zero (spec 4.5). -/
def defuzz (curve : List (ℚ × ℚ)) : Except FuzzyError ℚ :=
  if (centroidAccum curve).2 = 0 then Except.error FuzzyError.noActiveRule
  else Except.ok ((centroidAccum curve).1 / (centroidAccum curve).2)

/-- Modelled from the spec: compute aggregates the rules over the discretized
consequent universe and defuzzifies (spec 4.4-4.6). -/
def computeSystem (rules : List (ℚ × (ℚ → ℚ))) : Except FuzzyError ℚ :=
  defuzz (U100.map (fun x => (x, aggregate rules x)))

/-- The 18 orientation rules of src/main.py lines 62-81, as (firing strength,
target curve) pairs; `&` is min and `|` is max per spec 4.3. -/
def orientationRules (v : Inputs) : List (ℚ × (ℚ → ℚ)) :=
  [ (min (min (highMF v.social) (highMF v.talk)) (highMF v.confidence), extrovertMF),
    (min (highMF v.initiate) (max (medMF v.talk) (highMF v.confidence)), extrovertMF),
    (min (highMF v.group) (highMF v.public_speak), extrovertMF),
    (min (highMF v.energy) (expressiveMF v.express), extrovertMF),
    (min (lowMF v.alone) (max (highMF v.social) (highMF v.initiate)), extrovertMF),
    (min (min (lowMF v.social) (lowMF v.talk)) (highMF v.alone), introvertMF),
    (min (lowMF v.group) (lowMF v.public_speak), introvertMF),
    (min (lowMF v.energy) (reservedMF v.express), introvertMF),
    (min (lowMF v.initiate) (lowMF v.confidence), introvertMF),
    (min (highMF v.alone) (max (lowMF v.social) (lowMF v.talk)), introvertMF),
    (min (medMF v.social) (medMF v.talk), ambivertMF),
    (min (medMF v.confidence) (medMF v.alone), ambivertMF),
    (min (medMF v.group) (medMF v.public_speak), ambivertMF),
    (min (medMF v.energy) (balancedMF v.express), ambivertMF),
    (min (highMF v.social) (medMF v.alone), ambivertMF),
    (min (min (highMF v.talk) (reservedMF v.express)) (medMF v.confidence), ambivertMF),
    (min (medMF v.initiate) (max (medMF v.group) (medMF v.public_speak)), ambivertMF),
    (min (min (highMF v.confidence) (lowMF v.public_speak)) (medMF v.alone), ambivertMF) ]

/-- The 13 stability rules of src/main.py lines 84-101; none of them reads
`initiate`, matching the bindings at src/main.py lines 143-145. -/
def stabilityRules (v : Inputs) : List (ℚ × (ℚ → ℚ)) :=
  [ (min (lowMF v.confidence) (expressiveMF v.express), stabLowMF),
    (min (highMF v.energy) (highMF v.alone), stabLowMF),
    (min (lowMF v.confidence) (lowMF v.energy), stabLowMF),
    (min (lowMF v.group) (lowMF v.public_speak), stabLowMF),
    (min (medMF v.confidence) (balancedMF v.express), stabBalancedMF),
    (min (medMF v.energy) (medMF v.alone), stabBalancedMF),
    (min (medMF v.social) (medMF v.talk), stabBalancedMF),
    (min (medMF v.group) (medMF v.public_speak), stabBalancedMF),
    (min (highMF v.confidence) (balancedMF v.express), stabHighMF),
    (min (medMF v.energy) (highMF v.confidence), stabHighMF),
    (min (highMF v.group) (highMF v.public_speak), stabHighMF),
    (min (lowMF v.alone) (highMF v.confidence), stabHighMF),
    (min (highMF v.social) (balancedMF v.express), stabHighMF) ]

/-- Orientation controller: compute of sim_orient (src/main.py lines 104-149). -/
def computeOrientation (v : Inputs) : Except FuzzyError ℚ :=
  computeSystem (orientationRules v)

/-- Stability controller: compute of sim_stab (src/main.py lines 105-150). -/
def computeStability (v : Inputs) : Except FuzzyError ℚ :=
  computeSystem (stabilityRules v)

/-- Band labelling of the orientation score (src/main.py lines 159-162). -/
def interpret_orientation (score : ℚ) : String :=
  if score < 40 then "Introvert"
  else if score > 60 then "Extrovert"
  else "Ambivert"

/-- Band labelling of the stability score (src/main.py lines 164-167). -/
def interpret_stability (score : ℚ) : String :=
  if score < 40 then "Low"
  else if score > 60 then "High"
  else "Balanced"

/-! Helper lemmas about the membership evaluators. -/

lemma trapmf_nonneg (a b c d x : ℚ) : 0 ≤ trapmf a b c d x := by
  unfold trapmf
  split_ifs with h1 h2 h3
  · exact div_nonneg (by linarith [h1.1]) (by linarith [h1.1, h1.2])
  · norm_num
  · exact div_nonneg (by linarith [h3.2]) (by linarith [h3.1, h3.2])
  · exact le_refl 0

lemma trapmf_le_one (a b c d x : ℚ) : trapmf a b c d x ≤ 1 := by
  unfold trapmf
  split_ifs with h1 h2 h3
  · rw [div_le_one (by linarith [h1.1, h1.2])]; linarith [h1.2]
  · exact le_refl 1
  · rw [div_le_one (by linarith [h3.1, h3.2])]; linarith [h3.1]
  · norm_num

lemma trapmf_support (a b c d x : ℚ) (hab : a ≤ b) (hbc : b ≤ c) (hcd : c ≤ d)
    (hx : x < a ∨ d < x) : trapmf a b c d x = 0 := by
  unfold trapmf
  split_ifs with h1 h2 h3
  · exfalso; rcases hx with hx | hx <;> linarith [h1.1, h1.2]
  · exfalso; rcases hx with hx | hx <;> linarith [h2.1, h2.2]
  · exfalso; rcases hx with hx | hx <;> linarith [h3.1, h3.2]
  · rfl

lemma trimf_nonneg (a b c x : ℚ) : 0 ≤ trimf a b c x := by
  unfold trimf
  split_ifs with h1 h2 h3
  · exact div_nonneg (by linarith [h1.1]) (by linarith [h1.1, h1.2])
  · norm_num
  · exact div_nonneg (by linarith [h3.2]) (by linarith [h3.1, h3.2])
  · exact le_refl 0

lemma trimf_le_one (a b c x : ℚ) : trimf a b c x ≤ 1 := by
  unfold trimf
  split_ifs with h1 h2 h3
  · rw [div_le_one (by linarith [h1.1, h1.2])]; linarith [h1.2]
  · exact le_refl 1
  · rw [div_le_one (by linarith [h3.1, h3.2])]; linarith [h3.1]
  · norm_num

lemma trimf_support (a b c x : ℚ) (hab : a ≤ b) (hbc : b ≤ c)
    (hx : x < a ∨ c < x) : trimf a b c x = 0 := by
  unfold trimf
  split_ifs with h1 h2 h3
  · exfalso; rcases hx with hx | hx <;> linarith [h1.1, h1.2]
  · exfalso; rcases hx with hx | hx <;> linarith [h2]
  · exfalso; rcases hx with hx | hx <;> linarith [h3.1, h3.2]
  · rfl

/-! Claim theorems. -/

/-- C1: binding every one of the nine antecedents to 10.0 and invoking compute
yields a crisp orientation score strictly greater than 60, and binding every
antecedent to 0.0 yields a crisp orientation score strictly less than 40. -/
theorem orientation_all_high_all_low_bands :
    (∃ s : ℚ, computeOrientation ⟨10, 10, 10, 10, 10, 10, 10, 10, 10⟩ = Except.ok s ∧ 60 < s) ∧
    (∃ s : ℚ, computeOrientation ⟨0, 0, 0, 0, 0, 0, 0, 0, 0⟩ = Except.ok s ∧ s < 40) :=
  ⟨⟨521 / 6, by set_option maxRecDepth 10000 in decide!, by norm_num⟩,
   ⟨33 / 2, by set_option maxRecDepth 10000 in decide!, by norm_num⟩⟩

/-- C2: the 'low' trapezoid [0,0,3,5] returns exactly 1 at x=0 and x=3,
exactly 0 at x=5, and exactly 1/2 at x=4; the 'med' triangle [4,5.5,7]
returns exactly 1 at x=5.5 and exactly 0 at x=4 and x=7. -/
theorem low_med_breakpoint_values :
    lowMF 0 = 1 ∧ lowMF 3 = 1 ∧ lowMF 5 = 0 ∧ lowMF 4 = 1 / 2 ∧
    medMF (11 / 2) = 1 ∧ medMF 4 = 0 ∧ medMF 7 = 0 := by
  refine ⟨?_, ?_, ?_, ?_, ?_, ?_, ?_⟩ <;> decide!

/-- C3: every membership evaluator is total and range-bounded: for every
rational input x (monotone breakpoints), the degree lies in [0,1], and it is
0 outside the shape's support. -/
theorem membership_total_bounded (a b c d x : ℚ) (hab : a ≤ b) (hbc : b ≤ c) (hcd : c ≤ d) :
    (0 ≤ trapmf a b c d x ∧ trapmf a b c d x ≤ 1) ∧
    (0 ≤ trimf a b c x ∧ trimf a b c x ≤ 1) ∧
    ((x < a ∨ d < x) → trapmf a b c d x = 0) ∧
    ((x < a ∨ c < x) → trimf a b c x = 0) :=
  ⟨⟨trapmf_nonneg a b c d x, trapmf_le_one a b c d x⟩,
   ⟨trimf_nonneg a b c x, trimf_le_one a b c x⟩,
   trapmf_support a b c d x hab hbc hcd,
   trimf_support a b c x hab hbc⟩

theorem membership_total_bounded_witness :
    ((0 : ℚ) ≤ 0 ∧ (0 : ℚ) ≤ 3 ∧ (3 : ℚ) ≤ 5) ∧
    ((0 ≤ trapmf 0 0 3 5 7 ∧ trapmf 0 0 3 5 7 ≤ 1) ∧
     (0 ≤ trimf 0 0 3 7 ∧ trimf 0 0 3 7 ≤ 1) ∧
     (((7 : ℚ) < 0 ∨ (5 : ℚ) < 7) → trapmf 0 0 3 5 7 = 0) ∧
     (((7 : ℚ) < 0 ∨ (3 : ℚ) < 7) → trimf 0 0 3 7 = 0)) :=
  ⟨by norm_num, membership_total_bounded 0 0 3 5 7 (by norm_num) (by norm_num) (by norm_num)⟩

/-- C9: the crisp stability output is independent of the 'initiate' input:
for any two input vectors agreeing on the other eight antecedents, the
stability controller produces the identical crisp stability result. -/
theorem stability_independent_of_initiate (v₁ v₂ : Inputs)
    (h1 : v₁.social = v₂.social) (h2 : v₁.talk = v₂.talk)
    (h3 : v₁.confidence = v₂.confidence) (h4 : v₁.energy = v₂.energy)
    (h5 : v₁.alone = v₂.alone) (h6 : v₁.group = v₂.group)
    (h7 : v₁.public_speak = v₂.public_speak) (h8 : v₁.express = v₂.express) :
    computeStability v₁ = computeStability v₂ := by
  unfold computeStability stabilityRules
  rw [h1, h2, h3, h4, h5, h6, h7, h8]

theorem stability_independent_of_initiate_witness :
    computeStability ⟨5, 5, 5, 5, 5, 0, 5, 5, 5⟩ = computeStability ⟨5, 5, 5, 5, 5, 9, 5, 5, 5⟩ :=
  stability_independent_of_initiate _ _ rfl rfl rfl rfl rfl rfl rfl rfl

/-- C10: interpret_orientation returns 'Introvert' iff score < 40, 'Extrovert'
iff score > 60, and 'Ambivert' otherwise (so exactly 40 and exactly 60 are
'Ambivert'); interpret_stability behaves identically with 'Low'/'High'/'Balanced'. -/
theorem interpret_band_boundaries (s : ℚ) :
    (interpret_orientation s = "Introvert" ↔ s < 40) ∧
    (interpret_orientation s = "Extrovert" ↔ 60 < s) ∧
    (interpret_orientation s = "Ambivert" ↔ 40 ≤ s ∧ s ≤ 60) ∧
    (interpret_stability s = "Low" ↔ s < 40) ∧
    (interpret_stability s = "High" ↔ 60 < s) ∧
    (interpret_stability s = "Balanced" ↔ 40 ≤ s ∧ s ≤ 60) := by
  unfold interpret_orientation interpret_stability
  split_ifs with h1 h2 <;>
    refine ⟨?_, ?_, ?_, ?_, ?_, ?_⟩ <;>
    simp_all <;> linarith

/-! Helper lemmas about aggregation and defuzzification. -/

lemma centroidAccum_eq (curve : List (ℚ × ℚ)) :
    centroidAccum curve =
      ((curve.map (fun p => p.1 * p.2)).sum, (curve.map Prod.snd).sum) := by
  induction curve with
  | nil => rfl
  | cons p t ih =>
      show (p.1 * p.2 + (centroidAccum t).1, p.2 + (centroidAccum t).2) = _
      rw [ih]
      simp

lemma list_range_map_sum (f : ℕ → ℚ) (n : ℕ) :
    ((List.range n).map f).sum = ∑ i in Finset.range n, f i := by
  induction n with
  | zero => rfl
  | succ m ih =>
      rw [List.range_succ, List.map_append, List.sum_append, Finset.sum_range_succ, ih]
      simp

lemma computeSystem_eq (rules : List (ℚ × (ℚ → ℚ))) :
    computeSystem rules =
      if (∑ i in Finset.range 201, aggregate rules ((i : ℚ) / 2)) = 0
      then Except.error FuzzyError.noActiveRule
      else Except.ok
        ((∑ i in Finset.range 201, ((i : ℚ) / 2) * aggregate rules ((i : ℚ) / 2)) /
         (∑ i in Finset.range 201, aggregate rules ((i : ℚ) / 2))) := by
  have h1 : ((U100.map (fun x => (x, aggregate rules x))).map Prod.snd)
      = (List.range 201).map (fun i : ℕ => aggregate rules ((i : ℚ) / 2)) := by
    unfold U100
    rw [List.map_map, List.map_map]
    rfl
  have h2 : ((U100.map (fun x => (x, aggregate rules x))).map (fun p => p.1 * p.2))
      = (List.range 201).map (fun i : ℕ => ((i : ℚ) / 2) * aggregate rules ((i : ℚ) / 2)) := by
    unfold U100
    rw [List.map_map, List.map_map]
    rfl
  unfold computeSystem defuzz
  rw [centroidAccum_eq]
  dsimp only
  rw [h1, h2, list_range_map_sum, list_range_map_sum]

/-- C4: for every aggregated curve with samples (xᵢ, μᵢ) whose total membership
is nonzero, defuzzification returns exactly Σ(xᵢ·μᵢ) / Σ(μᵢ). -/
theorem defuzz_weighted_mean (curve : List (ℚ × ℚ)) (h : (curve.map Prod.snd).sum ≠ 0) :
    defuzz curve =
      Except.ok ((curve.map (fun p => p.1 * p.2)).sum / (curve.map Prod.snd).sum) := by
  unfold defuzz
  rw [centroidAccum_eq]
  simp [h]

theorem defuzz_weighted_mean_witness :
    (([((2 : ℚ), (1 : ℚ)), (4, 1)].map Prod.snd).sum ≠ 0) ∧
    defuzz [((2 : ℚ), (1 : ℚ)), (4, 1)] =
      Except.ok ((([((2 : ℚ), (1 : ℚ)), (4, 1)].map (fun p => p.1 * p.2)).sum) /
                 (([((2 : ℚ), (1 : ℚ)), (4, 1)].map Prod.snd).sum)) :=
  ⟨by decide!, defuzz_weighted_mean [((2 : ℚ), (1 : ℚ)), (4, 1)] (by decide!)⟩

/-- C5: aggregating the clipped consequent curves by pointwise maximum is
order-independent: any permutation of the rule list produces the identical
aggregated curve at every sample point and the identical crisp output. -/
theorem aggregation_order_independent (r₁ r₂ : List (ℚ × (ℚ → ℚ)))
    (hp : List.Perm r₁ r₂) (x : ℚ) :
    aggregate r₁ x = aggregate r₂ x ∧ computeSystem r₁ = computeSystem r₂ := by
  haveI : LeftCommutative (max : ℚ → ℚ → ℚ) := ⟨fun a b c => max_left_comm a b c⟩
  have hagg : ∀ y : ℚ, aggregate r₁ y = aggregate r₂ y := by
    intro y
    unfold aggregate
    refine List.Perm.foldr_eq ?_ 0
    exact hp.map (fun r => clip r.1 r.2 y)
  refine ⟨hagg x, ?_⟩
  unfold computeSystem
  have : (fun y : ℚ => (y, aggregate r₁ y)) = (fun y : ℚ => (y, aggregate r₂ y)) :=
    funext fun y => by rw [hagg y]
  rw [this]

theorem aggregation_order_independent_witness :
    aggregate [((1 : ℚ) / 2, medMF), (1, lowMF)] 5 = aggregate [((1 : ℚ), lowMF), (1 / 2, medMF)] 5 ∧
    computeSystem [((1 : ℚ) / 2, medMF), (1, lowMF)] = computeSystem [((1 : ℚ), lowMF), (1 / 2, medMF)] :=
  aggregation_order_independent _ _ (List.Perm.swap ((1 : ℚ), lowMF) ((1 / 2 : ℚ), medMF) []) 5

/-- C7: if the aggregated curve has zero total membership because no rule fires
with nonzero strength, compute surfaces the noActiveRule error rather than
silently returning a default crisp value. -/
theorem zero_firing_surfaces_error (rules : List (ℚ × (ℚ → ℚ)))
    (h : ∀ r ∈ rules, r.1 = 0 ∧ ∀ x : ℚ, 0 ≤ r.2 x) :
    computeSystem rules = Except.error FuzzyError.noActiveRule := by
  have hagg : ∀ (rs : List (ℚ × (ℚ → ℚ))),
      (∀ r ∈ rs, r.1 = 0 ∧ ∀ x : ℚ, 0 ≤ r.2 x) → ∀ x : ℚ, aggregate rs x = 0 := by
    intro rs hrs
    induction rs with
    | nil => intro x; rfl
    | cons r t ih =>
        intro x
        have hr := hrs r (List.mem_cons_self r t)
        have ht := ih (fun q hq => hrs q (List.mem_cons_of_mem r hq)) x
        unfold aggregate at ht ⊢
        simp only [List.map_cons, List.foldr_cons, ht]
        rw [hr.1]
        unfold clip
        rw [min_eq_left (hr.2 x)]
        exact max_self 0
  rw [computeSystem_eq]
  have hz : (∑ i in Finset.range 201, aggregate rules ((i : ℚ) / 2)) = 0 :=
    Finset.sum_eq_zero fun i _ => hagg rules h ((i : ℚ) / 2)
  rw [hz]
  simp

theorem zero_firing_surfaces_error_witness :
    (∀ r ∈ [((0 : ℚ), lowMF)], r.1 = 0 ∧ ∀ x : ℚ, 0 ≤ r.2 x) ∧
    computeSystem [((0 : ℚ), lowMF)] = Except.error FuzzyError.noActiveRule := by
  have h : ∀ r ∈ [((0 : ℚ), lowMF)], r.1 = 0 ∧ ∀ x : ℚ, 0 ≤ r.2 x := by
    intro r hr
    rw [List.mem_singleton] at hr
    subst hr
    exact ⟨rfl, fun x => trapmf_nonneg 0 0 3 5 x⟩
  exact ⟨h, zero_firing_surfaces_error _ h⟩

/-! Helper lemmas for the symmetric-triangle centroid property. -/

lemma trimf_left (a b c x : ℚ) (h1 : a < x) (h2 : x < b) :
    trimf a b c x = (x - a) / (b - a) := by
  unfold trimf
  rw [if_pos ⟨h1, h2⟩]

lemma trimf_right (a b c x : ℚ) (h1 : b < x) (h2 : x < c) :
    trimf a b c x = (c - x) / (c - b) := by
  unfold trimf
  rw [if_neg (fun h => absurd h.2 (not_lt.mpr h1.le)), if_neg (ne_of_gt h1), if_pos ⟨h1, h2⟩]

lemma ambivertMF_symm (x : ℚ) : ambivertMF (100 - x) = ambivertMF x := by
  unfold ambivertMF
  rcases lt_trichotomy x 30 with h30 | h30 | h30
  · rw [trimf_support 30 50 70 x (by norm_num) (by norm_num) (Or.inl h30),
        trimf_support 30 50 70 (100 - x) (by norm_num) (by norm_num) (Or.inr (by linarith))]
  · rw [h30]
    norm_num [trimf]
  · rcases lt_trichotomy x 50 with h50 | h50 | h50
    · rw [trimf_left 30 50 70 x h30 h50,
          trimf_right 30 50 70 (100 - x) (by linarith) (by linarith)]
      ring_nf
    · rw [h50]
      norm_num
    · rcases lt_trichotomy x 70 with h70 | h70 | h70
      · rw [trimf_right 30 50 70 x h50 h70,
            trimf_left 30 50 70 (100 - x) (by linarith) (by linarith)]
        ring_nf
      · rw [h70]
        norm_num [trimf]
      · rw [trimf_support 30 50 70 x (by norm_num) (by norm_num) (Or.inr h70),
            trimf_support 30 50 70 (100 - x) (by norm_num) (by norm_num) (Or.inl (by linarith))]

lemma sum_range201_reflect_zero (f : ℕ → ℚ) (hf : ∀ j, j < 201 → f (200 - j) = -f j) :
    ∑ i in Finset.range 201, f i = 0 := by
  have h1 := Finset.sum_range_reflect f 201
  have h2 : ∑ j in Finset.range 201, f (201 - 1 - j) = ∑ j in Finset.range 201, -f j := by
    refine Finset.sum_congr rfl ?_
    intro j hj
    have he : (201 - 1 - j : ℕ) = 200 - j := by omega
    rw [he, hf j (Finset.mem_range.mp hj)]
  rw [h2, Finset.sum_neg_distrib] at h1
  linarith

/-- C6: a consequent whose aggregated curve is the symmetric ambivert triangle
[30,50,70] clipped at a single rule's firing strength w > 0, with no other rule
contributing, defuzzifies to exactly the peak 50. -/
theorem single_symmetric_rule_centroid (w : ℚ) (hw : 0 < w) :
    computeSystem [(w, ambivertMF)] = Except.ok 50 := by
  have hagg : ∀ x : ℚ, aggregate [(w, ambivertMF)] x = min w (ambivertMF x) := by
    intro x
    show max (min w (ambivertMF x)) 0 = min w (ambivertMF x)
    exact max_eq_left (le_min hw.le (trimf_nonneg 30 50 70 x))
  have hD : 0 < ∑ i in Finset.range 201, min w (ambivertMF ((i : ℚ) / 2)) := by
    apply Finset.sum_pos'
    · exact fun i _ => le_min hw.le (trimf_nonneg 30 50 70 _)
    · refine ⟨100, Finset.mem_range.mpr (by norm_num), ?_⟩
      have h1 : ambivertMF (((100 : ℕ) : ℚ) / 2) = 1 := by
        norm_num [ambivertMF, trimf]
      rw [h1]
      exact lt_min hw one_pos
  have hS : ∑ i in Finset.range 201,
      (((i : ℚ) / 2 - 50) * min w (ambivertMF ((i : ℚ) / 2))) = 0 := by
    refine sum_range201_reflect_zero _ ?_
    intro j hj
    show ((((200 - j : ℕ) : ℚ) / 2 - 50) * min w (ambivertMF (((200 - j : ℕ) : ℚ) / 2)))
        = -((((j : ℚ) / 2 - 50) * min w (ambivertMF ((j : ℚ) / 2))))
    have hc : ((200 - j : ℕ) : ℚ) = 200 - (j : ℚ) := by
      rw [Nat.cast_sub (by omega : j ≤ 200)]
      norm_num
    rw [hc]
    have h100 : (200 - (j : ℚ)) / 2 = 100 - (j : ℚ) / 2 := by ring
    rw [h100, ambivertMF_symm]
    ring
  have hsplit : ∑ i in Finset.range 201,
      (((i : ℚ) / 2 - 50) * min w (ambivertMF ((i : ℚ) / 2)))
      = (∑ i in Finset.range 201, ((i : ℚ) / 2) * min w (ambivertMF ((i : ℚ) / 2)))
        - 50 * (∑ i in Finset.range 201, min w (ambivertMF ((i : ℚ) / 2))) := by
    rw [Finset.mul_sum, ← Finset.sum_sub_distrib]
    refine Finset.sum_congr rfl ?_
    intro i _
    ring
  have hN : (∑ i in Finset.range 201, ((i : ℚ) / 2) * min w (ambivertMF ((i : ℚ) / 2)))
      = 50 * (∑ i in Finset.range 201, min w (ambivertMF ((i : ℚ) / 2))) := by
    linarith [hS, hsplit]
  rw [computeSystem_eq]
  simp only [hagg]
  split_ifs with hzero
  · exact absurd hzero hD.ne'
  · rw [hN, mul_div_assoc, div_self hD.ne', mul_one]

theorem single_symmetric_rule_centroid_witness :
    (0 : ℚ) < 1 ∧ computeSystem [((1 : ℚ), ambivertMF)] = Except.ok 50 :=
  ⟨by norm_num, single_symmetric_rule_centroid 1 (by norm_num)⟩

/-- C8: a crisp input outside [0,10] bound to an antecedent is not rejected:
its membership degree in every antecedent term is 0, and compute proceeds
normally (here with the other eight antecedents at 10, producing the same
crisp orientation score 521/6 as the all-ten vector). -/
theorem out_of_range_not_rejected (x : ℚ) (hx : x < 0 ∨ 10 < x) :
    lowMF x = 0 ∧ medMF x = 0 ∧ highMF x = 0 ∧
    computeOrientation ⟨10, 10, 10, 10, x, 10, 10, 10, 10⟩ = Except.ok (521 / 6) := by
  have h1 : lowMF x = 0 :=
    trapmf_support 0 0 3 5 x (by norm_num) (by norm_num) (by norm_num)
      (by rcases hx with h | h; exacts [Or.inl h, Or.inr (by linarith)])
  have h2 : medMF x = 0 :=
    trimf_support 4 (11 / 2) 7 x (by norm_num) (by norm_num)
      (by rcases hx with h | h; exacts [Or.inl (by linarith), Or.inr (by linarith)])
  have h3 : highMF x = 0 :=
    trapmf_support 6 8 10 10 x (by norm_num) (by norm_num) (by norm_num)
      (by rcases hx with h | h; exacts [Or.inl (by linarith), Or.inr h])
  refine ⟨h1, h2, h3, ?_⟩
  unfold computeOrientation orientationRules
  dsimp only
  rw [h1, h2, h3]
  set_option maxRecDepth 10000 in decide!

theorem out_of_range_not_rejected_witness :
    ((11 : ℚ) < 0 ∨ (10 : ℚ) < 11) ∧
    (lowMF 11 = 0 ∧ medMF 11 = 0 ∧ highMF 11 = 0 ∧
     computeOrientation ⟨10, 10, 10, 10, 11, 10, 10, 10, 10⟩ = Except.ok (521 / 6)) :=
  ⟨Or.inr (by norm_num), out_of_range_not_rejected 11 (Or.inr (by norm_num))⟩

end Fuzylogic
